import Mathlib

/-!
# Verification of `linear_stats.py`

Shallow embedding of the `linear-stats` program: a CLI that reads one numeric
value per line, pairs each value with its zero-based position, and prints the
least-squares regression line and the Pearson correlation coefficient.

Modelling conventions:
* Python floats are modelled by `ℚ` (exact arithmetic).  Every claim verified
  below concerns values at which the Python double-precision run coincides with
  the exact run (small integers and exact quotients), or properties that do
  not depend on rounding (guard conditions, control flow, error propagation).
* `math.sqrt` has no exact rational counterpart, so `pearson_correlation`
  returns the pair `(numerator, radicand)` standing for the real number
  `numerator / sqrt radicand`; the zero test `denominator == 0` of the source
  becomes `radicand = 0` (for a nonnegative radicand, `sqrt radicand = 0` iff
  `radicand = 0`), and a negative radicand is the `math domain error` case of
  `math.sqrt`.
* Python exceptions become `Except String`, the string being the `ValueError`
  message of the source.
* The exact-ℚ guard convention above is faithful wherever the double run of
  the source coincides with the exact run.  Where rounding matters — the
  degenerate-input guard on constant inputs such as 0.3 — the development
  additionally models IEEE double rounding explicitly (`roundDouble`, round
  to nearest with ties to even at 53 bits) and evaluates the guard of the
  source on that semantics (see the C5 analysis).
* `float(...)` and `str.strip()` are Python standard-library functions, not
  code of this repository; `pyFloat` models `float` on ordinary decimal
  literals (optional sign, digits with optional fractional part, optional
  exponent) and `pyStrip` models `strip` as whitespace trimming.  No claim
  below depends on the exact literal syntax accepted.
-/

namespace LinearStats

/-! ## Python standard-library models -/

/-- Model of `str.strip()`: remove leading and trailing whitespace. -/
def pyStrip (s : String) : String :=
  String.mk
    (((s.toList.dropWhile Char.isWhitespace).reverse.dropWhile
        Char.isWhitespace).reverse)

/-- Value of a list of decimal digit characters, read left to right. -/
def digitsVal (ds : List Char) : ℕ :=
  ds.foldl (fun a c => 10 * a + (c.toNat - 48)) 0

/-- Numeric components of an accepted float literal: mantissa sign, integer
part, fractional digits (value and count), exponent sign and value. -/
structure FloatLit where
  negM : Bool
  intVal : ℕ
  fracVal : ℕ
  fracLen : ℕ
  negE : Bool
  expVal : ℕ
deriving DecidableEq

/-- Exponent suffix of a float literal: optional sign then digits, which must
consume the rest of the input. -/
def scanExponent (t : List Char) : Option (Bool × ℕ) :=
  let se : Bool × List Char :=
    match t with
    | '+' :: u => (false, u)
    | '-' :: u => (true, u)
    | u => (false, u)
  let ep := se.2.span Char.isDigit
  if ep.1.isEmpty || !ep.2.isEmpty then none
  else some (se.1, digitsVal ep.1)

/-- Syntax scanner of Python `float(...)` on ordinary decimal literals:
optional sign, digits with optional fractional part (at least one digit
overall), optional `e`/`E` exponent.  Special forms (`inf`, `nan`,
underscores) are omitted; no verified claim depends on them. -/
def pyFloatScan (cs : List Char) : Option FloatLit :=
  let sr : Bool × List Char :=
    match cs with
    | '+' :: t => (false, t)
    | '-' :: t => (true, t)
    | t => (false, t)
  let ip := sr.2.span Char.isDigit
  let fr : Option (List Char) × List Char :=
    match ip.2 with
    | '.' :: t =>
      let fp := t.span Char.isDigit
      (some fp.1, fp.2)
    | t => (none, t)
  let fracDs := fr.1.getD []
  if ip.1.isEmpty && fracDs.isEmpty then none
  else
    match fr.2 with
    | [] => some ⟨sr.1, digitsVal ip.1, digitsVal fracDs, fracDs.length, false, 0⟩
    | 'e' :: t => (scanExponent t).map
        (fun p => ⟨sr.1, digitsVal ip.1, digitsVal fracDs, fracDs.length, p.1, p.2⟩)
    | 'E' :: t => (scanExponent t).map
        (fun p => ⟨sr.1, digitsVal ip.1, digitsVal fracDs, fracDs.length, p.1, p.2⟩)
    | _ => none

/-- Exact value of an accepted float literal:
`sign * (int + frac/10^fracLen) * 10^(expSign * exp)`. -/
def floatLitVal (f : FloatLit) : ℚ :=
  (if f.negM then -1 else 1) *
    ((f.intVal : ℚ) + (f.fracVal : ℚ) / (10 : ℚ) ^ f.fracLen) *
    (10 : ℚ) ^ (if f.negE then -(f.expVal : ℤ) else (f.expVal : ℤ))

/-- Model of Python `float(...)`: scan the literal, then take its value. -/
def pyFloat (s : String) : Option ℚ :=
  (pyFloatScan s.toList).map floatLitVal

/-! ## Parsing (`parse_file`) -/

/-- The data carried by the `ValueError` raised on an unparseable line: the
source interpolates the 1-based line number and the stripped text into the
message. -/
structure ParseErr where
  lineNo : ℕ
  text : String
deriving DecidableEq

/-- Message text of the parse `ValueError` (`\x27` is the ASCII quote). -/
def parseErrMsg (e : ParseErr) : String :=
  "Unable to parse line " ++ toString e.lineNo ++ ": \x27" ++ e.text ++ "\x27"

/-- Loop body of `parse_file`: `k` is the 1-based number of the current line
(per `enumerate` with start 1 in the source).  A blank line is skipped; an unparseable
non-blank line raises, discarding everything; otherwise the value is appended
and parsing continues. -/
def parseLines : ℕ → List String → Except ParseErr (List ℚ)
  | _, [] => .ok []
  | k, line :: rest =>
    let s := pyStrip line
    if s.isEmpty then parseLines (k + 1) rest
    else
      match pyFloat s with
      | some v =>
        match parseLines (k + 1) rest with
        | .ok vs => .ok (v :: vs)
        | .error e => .error e
      | none => .error ⟨k, s⟩

/-- `parse_file`, with the file contents given as its list of lines. -/
def parse_file (lines : List String) : Except ParseErr (List ℚ) :=
  parseLines 1 lines

/-! ## Statistics (`linear_regression`, `pearson_correlation`) -/

/-- `sum(x_i * y_i for x_i, y_i in zip(x, y))`. -/
def sumXY (x y : List ℚ) : ℚ :=
  ((x.zip y).map (fun p => p.1 * p.2)).sum

/-- `sum(x_i ** 2 for x_i in x)`. -/
def sumSq (l : List ℚ) : ℚ :=
  (l.map (fun t => t ^ 2)).sum

/-- The regression denominator `n * sum_x2 - sum_x ** 2` (with `n = len(x)`). -/
def regDenom (x : List ℚ) : ℚ :=
  (x.length : ℚ) * sumSq x - x.sum ^ 2

/-- Message of the `ValueError` raised by `linear_regression`. -/
def regDenomMsg : String :=
  "Cannot compute linear regression: denominator is zero"

/-- Message of the `ValueError` raised by `pearson_correlation`. -/
def corrDenomMsg : String :=
  "Cannot compute Pearson correlation: denominator is zero"

/-- Message of the `ValueError` raised by `math.sqrt` on a negative argument. -/
def mathDomainMsg : String := "math domain error"

/-- `linear_regression(x, y)`: returns `(m, b)` or raises `ValueError` when
the denominator is zero. -/
def linear_regression (x y : List ℚ) : Except String (ℚ × ℚ) :=
  let n : ℚ := x.length
  let sum_x := x.sum
  let sum_y := y.sum
  let sum_xy := sumXY x y
  let sum_x2 := sumSq x
  let denominator := n * sum_x2 - sum_x ^ 2
  if denominator = 0 then .error regDenomMsg
  else
    let m := (n * sum_xy - sum_x * sum_y) / denominator
    let b := (sum_y - m * sum_x) / n
    .ok (m, b)

/-- The numerator `n * sum_xy - sum_x * sum_y` of `pearson_correlation`. -/
def pearsonNumerator (x y : List ℚ) : ℚ :=
  (x.length : ℚ) * sumXY x y - x.sum * y.sum

/-- The radicand `(n * sum_x2 - sum_x ** 2) * (n * sum_y2 - sum_y ** 2)` of
`pearson_correlation`; note `n = len(x)` in BOTH factors. -/
def pearsonRadicand (x y : List ℚ) : ℚ :=
  regDenom x * ((x.length : ℚ) * sumSq y - y.sum ^ 2)

/-- The value returned by `pearson_correlation`, in exact form: it stands for
the real number `numerator / sqrt radicand` (the source divides by
`math.sqrt` of the radicand, which is irrational in general). -/
structure PearsonResult where
  numerator : ℚ
  radicand : ℚ
deriving DecidableEq

/-- `p` stands for exactly the rational `q`: the radicand is nonnegative,
`numerator² = q² · radicand` and the signs agree, i.e.
`numerator / sqrt radicand = q` over the reals. -/
def PearsonResult.represents (p : PearsonResult) (q : ℚ) : Prop :=
  0 ≤ p.radicand ∧ p.numerator ^ 2 = q ^ 2 * p.radicand ∧ (0 ≤ p.numerator ↔ 0 ≤ q)

instance (p : PearsonResult) (q : ℚ) : Decidable (p.represents q) := by
  unfold PearsonResult.represents; infer_instance

/-- `pearson_correlation(x, y)`.  The source computes
`denominator = math.sqrt(radicand)` — which raises `math domain error` when
the radicand is negative — then raises on `denominator == 0` (equivalently
`radicand = 0`), and otherwise returns `numerator / denominator`. -/
def pearson_correlation (x y : List ℚ) : Except String PearsonResult :=
  let numerator := pearsonNumerator x y
  let radicand := pearsonRadicand x y
  if radicand < 0 then .error mathDomainMsg
  else if radicand = 0 then .error corrDenomMsg
  else .ok ⟨numerator, radicand⟩

/-! ## Orchestration (`main`) and output formatting -/

/-- The x sequence built by `main`: `list(range(len(y_values)))`. -/
def indexSeq (n : ℕ) : List ℚ :=
  (List.range n).map (Nat.cast : ℕ → ℚ)

/-- One line of standard output, carried symbolically (the Pearson line holds
an exact representation of the printed real). -/
inductive OutLine where
  | regression (m b : ℚ)
  | pearson (p : PearsonResult)
deriving DecidableEq

/-- Result of a run: exit code, standard output lines, error-stream lines. -/
structure RunOutcome where
  exit : ℕ
  stdout : List OutLine
  stderr : List String
deriving DecidableEq

/-- Result of attempting to read the data file. -/
inductive ReadResult where
  | lines (ls : List String)
  | ioError (msg : String)

/-- The usage message, with the program name interpolated. -/
def usageMsg (a : String) : String := "Usage: " ++ a ++ " <data_file>"

/-- `main(argv)`, as a function of the argument vector and of the outcome of
reading the data file.  Mirrors the source control flow: argument-count
check, read/parse (any exception → exit 1), empty check, regression and
correlation inside one `try` (a `ValueError` from either → exit 1), then the
two output lines. -/
def main (argv : List String) (r : ReadResult) : RunOutcome :=
  if argv.length ≠ 2 then ⟨1, [], [usageMsg (argv.headD "")]⟩
  else
    match r with
    | .ioError msg => ⟨1, [], ["Error reading file: " ++ msg]⟩
    | .lines ls =>
      match parse_file ls with
      | .error e => ⟨1, [], ["Error reading file: " ++ parseErrMsg e]⟩
      | .ok ys =>
        if ys.isEmpty then ⟨1, [], ["Error: No data found in file"]⟩
        else
          match linear_regression (indexSeq ys.length) ys with
          | .error msg => ⟨1, [], ["Error computing statistics: " ++ msg]⟩
          | .ok mb =>
            match pearson_correlation (indexSeq ys.length) ys with
            | .error msg => ⟨1, [], ["Error computing statistics: " ++ msg]⟩
            | .ok p => ⟨0, [.regression mb.1 mb.2, .pearson p], []⟩

/-- Fixed-point formatting of an exact rational with `d` digits after the
point, modelling the fixed-point f-string formatting of the source at
values where no rounding occurs
(every formatted value verified below is exact, so the tie-breaking rule is
irrelevant). -/
def formatFixed (q : ℚ) (d : ℕ) : String :=
  let a : ℚ := |q|
  let scaled : ℤ := ⌊a * (10 : ℚ) ^ d + 1 / 2⌋
  let base : ℤ := (10 : ℤ) ^ d
  let fpStr := toString (scaled % base).toNat
  let pad := String.mk (List.replicate (d - fpStr.length) '0')
  (if q < 0 then "-" else "") ++ toString (scaled / base) ++ "." ++ pad ++ fpStr

/-- The regression output line, slope and intercept with 6 decimals. -/
def renderRegressionLine (m b : ℚ) : String :=
  "Linear Regression Line: y = " ++ formatFixed m 6 ++ "x + " ++ formatFixed b 6

/-- The correlation output line with 10 decimals, for a correlation whose
exact value is the rational `q`. -/
def renderPearsonLine (q : ℚ) : String :=
  "Pearson Correlation Coefficient: " ++ formatFixed q 10

/-! ## IEEE double rounding (for the C5 analysis)

Python floats are IEEE binary64: every arithmetic operation rounds its exact
result to 53 significant bits, to nearest, ties to even.  The definitions
below model that rounding (with unbounded exponent: overflow and subnormal
behavior are not modelled — every value in the verified trace is normal) and
the double evaluation of the correlation guard of the source for a file of
three equal values. -/

/-- Round a rational to an integer: nearest, ties to even. -/
def roundHalfEven (x : ℚ) : ℤ :=
  let f := ⌊x⌋
  if x - f < 1 / 2 then f
  else if 1 / 2 < x - f then f + 1
  else if f % 2 = 0 then f else f + 1

/-- Round a rational to the nearest IEEE binary64 value (53-bit significand,
round to nearest, ties to even, unbounded exponent). -/
def roundDouble (q : ℚ) : ℚ :=
  if q = 0 then 0
  else
    let e := Int.log 2 |q|
    let s := e - 52
    (if q < 0 then -1 else 1) * (roundHalfEven (|q| / (2 : ℚ) ^ s) : ℚ) *
      (2 : ℚ) ^ s

/-- Double addition: the exact sum, rounded. -/
def flAdd (a b : ℚ) : ℚ := roundDouble (a + b)

/-- Double multiplication: the exact product, rounded. -/
def flMul (a b : ℚ) : ℚ := roundDouble (a * b)

/-- Double subtraction: the exact difference, rounded. -/
def flSub (a b : ℚ) : ℚ := roundDouble (a - b)

/-- Double evaluation of the y factor `n * sum_y2 - sum_y ** 2` of the
correlation radicand for `y = [c, c, c]` (`n = 3`), following the operation
order of the source: `sum` folds left starting from the integer 0; each
square is a correctly rounded double squaring; `n * sum_y2` and the
subtraction are double operations. -/
def floatYFactorOfThree (c : ℚ) : ℚ :=
  let c2 := flMul c c
  let sum_y2 := flAdd (flAdd (flAdd 0 c2) c2) c2
  let sum_y := flAdd (flAdd (flAdd 0 c) c) c
  flSub (flMul 3 sum_y2) (flMul sum_y sum_y)

/-- Double evaluation of the correlation radicand for `y = [c, c, c]` and
`x = [0, 1, 2]`: the x factor `n * sum_x2 - sum_x ** 2 = 6` is exact Python
integer arithmetic, then one double multiplication with the y factor. -/
def floatRadicandOfThree (c : ℚ) : ℚ :=
  flMul 6 (floatYFactorOfThree c)

/-! ## Specification-side definitions (for the refinement claim C1) -/

/-- Modelled from the spec: the regression formulas of §4.2, with the sums
written as indexed sums over positions `0 ≤ i < n`:
`n = length`, `Sx = sum(x)`, `Sy = sum(y)`, `Sxy = sum(x_i * y_i)`,
`Sxx = sum(x_i^2)`, `m = (n*Sxy - Sx*Sy) / (n*Sxx - Sx^2)`,
`b = (Sy - m*Sx) / n`. -/
def specRegression (x y : List ℚ) : ℚ × ℚ :=
  let n : ℚ := x.length
  let Sx := ∑ i in Finset.range x.length, x.getD i 0
  let Sy := ∑ i in Finset.range x.length, y.getD i 0
  let Sxy := ∑ i in Finset.range x.length, x.getD i 0 * y.getD i 0
  let Sxx := ∑ i in Finset.range x.length, (x.getD i 0) ^ 2
  let m := (n * Sxy - Sx * Sy) / (n * Sxx - Sx ^ 2)
  let b := (Sy - m * Sx) / n
  (m, b)

/-! ## Helper lemmas -/

theorem two_mul_sum_le (a : ℚ) (l : List ℚ) :
    2 * a * l.sum ≤ (l.length : ℚ) * a ^ 2 + sumSq l := by
  induction l with
  | nil => simp [sumSq]
  | cons b t ih =>
    simp only [List.sum_cons, List.length_cons, sumSq, List.map_cons] at ih ⊢
    push_cast
    nlinarith [sq_nonneg (a - b)]

theorem sq_sum_le (l : List ℚ) :
    l.sum ^ 2 ≤ (l.length : ℚ) * sumSq l := by
  induction l with
  | nil => simp [sumSq]
  | cons a t ih =>
    have h2 := two_mul_sum_le a t
    simp only [sumSq] at h2
    simp only [List.sum_cons, List.length_cons, sumSq, List.map_cons] at ih ⊢
    push_cast
    nlinarith [ih, h2]

theorem regDenom_nonneg (x : List ℚ) : 0 ≤ regDenom x := by
  have := sq_sum_le x
  unfold regDenom
  linarith

theorem sum_map_eq_finsetIdx (l : List ℚ) (f : ℚ → ℚ) :
    (l.map f).sum = ∑ i in Finset.range l.length, f (l.getD i 0) := by
  induction l with
  | nil => simp
  | cons a t ih =>
    rw [List.map_cons, List.sum_cons, List.length_cons, Finset.sum_range_succ']
    simp only [List.getD_cons_succ, List.getD_cons_zero]
    rw [ih]
    ring

theorem sum_eq_finsetIdx (l : List ℚ) :
    l.sum = ∑ i in Finset.range l.length, l.getD i 0 := by
  have h := sum_map_eq_finsetIdx l (fun t => t)
  simpa using h

theorem sumXY_eq_finsetIdx (x y : List ℚ) (h : x.length = y.length) :
    sumXY x y = ∑ i in Finset.range x.length, x.getD i 0 * y.getD i 0 := by
  induction x generalizing y with
  | nil => simp [sumXY]
  | cons a t ih =>
    cases y with
    | nil => simp at h
    | cons b u =>
      simp only [List.length_cons, Nat.succ_inj] at h
      simp only [sumXY, List.zip_cons_cons, List.map_cons, List.sum_cons,
        List.length_cons]
      rw [Finset.sum_range_succ']
      simp only [List.getD_cons_succ, List.getD_cons_zero]
      have := ih u h
      simp only [sumXY] at this
      rw [this, h]
      ring

theorem sumSq_append (l₁ l₂ : List ℚ) :
    sumSq (l₁ ++ l₂) = sumSq l₁ + sumSq l₂ := by
  unfold sumSq
  rw [List.map_append, List.sum_append]

theorem indexSeq_succ (k : ℕ) :
    indexSeq (k + 1) = indexSeq k ++ [(k : ℚ)] := by
  unfold indexSeq
  rw [List.range_succ, List.map_append]
  rfl

theorem sum_indexSeq (n : ℕ) :
    (indexSeq n).sum = (n : ℚ) * ((n : ℚ) - 1) / 2 := by
  induction n with
  | zero => simp [indexSeq]
  | succ k ih =>
    rw [indexSeq_succ, List.sum_append, ih, List.sum_cons, List.sum_nil]
    push_cast
    ring

theorem sumSq_indexSeq (n : ℕ) :
    sumSq (indexSeq n) = (n : ℚ) * ((n : ℚ) - 1) * (2 * (n : ℚ) - 1) / 6 := by
  induction n with
  | zero => simp [indexSeq, sumSq]
  | succ k ih =>
    rw [indexSeq_succ, sumSq_append, ih]
    have hk : sumSq [(k : ℚ)] = (k : ℚ) ^ 2 := by
      simp [sumSq]
    rw [hk]
    push_cast
    ring

theorem length_indexSeq (n : ℕ) : (indexSeq n).length = n := by
  unfold indexSeq
  rw [List.length_map, List.length_range]

theorem regDenom_indexSeq (n : ℕ) :
    regDenom (indexSeq n) = (n : ℚ) ^ 2 * ((n : ℚ) ^ 2 - 1) / 12 := by
  unfold regDenom
  rw [length_indexSeq, sum_indexSeq, sumSq_indexSeq]
  ring

theorem regDenom_indexSeq_pos (n : ℕ) (h : 2 ≤ n) :
    0 < regDenom (indexSeq n) := by
  rw [regDenom_indexSeq]
  have h2 : (2 : ℚ) ≤ (n : ℚ) := by exact_mod_cast h
  have h4 : (4 : ℚ) ≤ (n : ℚ) ^ 2 := by nlinarith
  exact div_pos (by nlinarith) (by norm_num)

theorem sum_replicate_rat (n : ℕ) (c : ℚ) :
    (List.replicate n c).sum = (n : ℚ) * c := by
  induction n with
  | zero => simp
  | succ k ih =>
    rw [List.replicate_succ, List.sum_cons, ih]
    push_cast
    ring

theorem sumSq_replicate (n : ℕ) (c : ℚ) :
    sumSq (List.replicate n c) = (n : ℚ) * c ^ 2 := by
  unfold sumSq
  rw [List.map_replicate, sum_replicate_rat]

theorem sumXY_replicate (l : List ℚ) (c : ℚ) :
    sumXY l (List.replicate l.length c) = c * l.sum := by
  induction l with
  | nil => simp [sumXY]
  | cons a t ih =>
    simp only [List.length_cons, List.replicate_succ, sumXY, List.zip_cons_cons,
      List.map_cons, List.sum_cons] at ih ⊢
    rw [ih]
    ring

theorem pyFloat_eval_some (s : String) (l : FloatLit)
    (h : pyFloatScan s.toList = some l) : pyFloat s = some (floatLitVal l) := by
  unfold pyFloat
  rw [h]
  rfl

theorem parseLines_filter (lines : List String) : ∀ (k k' : ℕ) (vs : List ℚ),
    parseLines k lines = .ok vs →
    parseLines k' (lines.filter (fun l => !(pyStrip l).isEmpty)) = .ok vs := by
  induction lines with
  | nil =>
    intro k k' vs h
    simpa [parseLines] using h
  | cons l t ih =>
    intro k k' vs h
    rw [List.filter_cons]
    by_cases hb : (pyStrip l).isEmpty
    · simp only [parseLines, hb, if_true] at h
      simp only [hb, Bool.not_true, if_neg, Bool.false_eq_true, ite_false]
      exact ih (k + 1) k' vs h
    · simp only [parseLines, hb, if_false, Bool.false_eq_true, ite_false] at h
      cases hf : pyFloat (pyStrip l) with
      | none => rw [hf] at h; exact absurd h (by simp)
      | some v =>
        rw [hf] at h
        cases hr : parseLines (k + 1) t with
        | error e => rw [hr] at h; exact absurd h (by simp)
        | ok vs0 =>
          rw [hr] at h
          simp only [Except.ok.injEq] at h
          subst h
          simp only [hb, Bool.not_false, if_pos, parseLines, Bool.false_eq_true,
            ite_false, hf]
          rw [ih (k + 1) (k' + 1) vs0 hr]

theorem parseLines_firstError (lines : List String) : ∀ (k i : ℕ),
    i < lines.length →
    (∀ j, j < i → ((pyStrip (lines.getD j "")).isEmpty = true ∨
        (pyFloat (pyStrip (lines.getD j ""))).isSome = true)) →
    (pyStrip (lines.getD i "")).isEmpty = false →
    pyFloat (pyStrip (lines.getD i "")) = none →
    parseLines k lines = .error ⟨k + i, pyStrip (lines.getD i "")⟩ := by
  induction lines with
  | nil =>
    intro k i hi
    exact absurd hi (by simp)
  | cons l t ih =>
    intro k i hi hprev hnb hnone
    cases i with
    | zero =>
      simp only [List.getD_cons_zero] at hnb hnone
      simp only [parseLines, hnb, Bool.false_eq_true, ite_false, hnone,
        List.getD_cons_zero, Nat.add_zero]
    | succ j =>
      simp only [List.getD_cons_succ] at hnb hnone ⊢
      have hj : j < t.length := by
        simpa [Nat.succ_lt_succ_iff] using hi
      have hprevT : ∀ j0, j0 < j → ((pyStrip (t.getD j0 "")).isEmpty = true ∨
          (pyFloat (pyStrip (t.getD j0 ""))).isSome = true) := by
        intro j0 hj0
        have := hprev (j0 + 1) (by omega)
        simpa [List.getD_cons_succ] using this
      have hrec := ih (k + 1) j hj hprevT hnb hnone
      have hl := hprev 0 (by omega)
      simp only [List.getD_cons_zero] at hl
      have hidx : k + 1 + j = k + (j + 1) := by omega
      by_cases hb : (pyStrip l).isEmpty
      · simp only [parseLines, hb, if_true, hrec]
        rw [hidx]
      · have hs : (pyFloat (pyStrip l)).isSome = true := by
          rcases hl with hb1 | hs1
          · exact absurd hb1 hb
          · exact hs1
        obtain ⟨v, hf⟩ := Option.isSome_iff_exists.mp hs
        simp only [parseLines, hb, Bool.false_eq_true, ite_false, hf, hrec]
        rw [hidx]

theorem pyFloat_eq_of_scan (s : String) (l : FloatLit) (q : ℚ)
    (h : pyFloatScan s.toList = some l) (hv : floatLitVal l = q) :
    pyFloat s = some q := by
  unfold pyFloat
  rw [h]
  show some (floatLitVal l) = some q
  rw [hv]

theorem floatLitVal_int (v : ℕ) :
    floatLitVal ⟨false, v, 0, 0, false, 0⟩ = (v : ℚ) := by
  norm_num [floatLitVal]

theorem parseLines_nil (k : ℕ) : parseLines k [] = .ok [] := rfl

theorem parseLines_cons_value (k : ℕ) (l : String) (rest : List String)
    (v : ℚ) (vs : List ℚ)
    (hb : (pyStrip l).isEmpty = false) (hf : pyFloat (pyStrip l) = some v)
    (hrest : parseLines (k + 1) rest = .ok vs) :
    parseLines k (l :: rest) = .ok (v :: vs) := by
  simp only [parseLines, hb, Bool.false_eq_true, ite_false, hf, hrest]

theorem parseLines_cons_blank (k : ℕ) (l : String) (rest : List String)
    (hb : (pyStrip l).isEmpty = true) :
    parseLines k (l :: rest) = parseLines (k + 1) rest := by
  simp only [parseLines, hb, if_true]

theorem int_log2_eq {q : ℚ} {e : ℤ} (hq : 0 < q)
    (h1 : (2 : ℚ) ^ e ≤ q) (h2 : q < (2 : ℚ) ^ (e + 1)) : Int.log 2 q = e := by
  have hb : (1 : ℕ) < 2 := one_lt_two
  have hle : e ≤ Int.log 2 q := by
    rw [← Int.zpow_le_iff_le_log hb hq]
    exact_mod_cast h1
  have hlt : Int.log 2 q < e + 1 := by
    rw [← Int.lt_zpow_iff_log_lt hb hq]
    exact_mod_cast h2
  omega

theorem roundDouble_eval (q m : ℚ) (e : ℤ) (hq : 0 < q)
    (h1 : (2 : ℚ) ^ e ≤ q) (h2 : q < (2 : ℚ) ^ (e + 1))
    (hm : (roundHalfEven (q / (2 : ℚ) ^ (e - 52)) : ℚ) * (2 : ℚ) ^ (e - 52) = m) :
    roundDouble q = m := by
  unfold roundDouble
  rw [if_neg (ne_of_gt hq), abs_of_pos hq, int_log2_eq hq h1 h2,
      if_neg (not_lt.mpr (le_of_lt hq))]
  show 1 * (roundHalfEven (q / (2 : ℚ) ^ (e - 52)) : ℚ) * (2 : ℚ) ^ (e - 52) = m
  rw [one_mul, hm]

/-! ## Claims -/

/-- C1: for equal-length sequences whose denominator `n*Sxx - Sx^2` is
non-zero, `linear_regression` returns exactly the pair `(m, b)` given by the
formula shape of the specification (`n = length`, `Sx = sum(x)`, `Sy = sum(y)`,
`Sxy = sum(x_i * y_i)`, `Sxx = sum(x_i^2)`,
`m = (n*Sxy - Sx*Sy) / (n*Sxx - Sx^2)`, `b = (Sy - m*Sx) / n`). -/
theorem C1_regression_matches_spec_formula (x y : List ℚ)
    (hlen : x.length = y.length) (hden : regDenom x ≠ 0) :
    linear_regression x y = .ok (specRegression x y) := by
  have hA : ∑ i in Finset.range x.length, x.getD i 0 = x.sum :=
    (sum_eq_finsetIdx x).symm
  have hB : ∑ i in Finset.range x.length, y.getD i 0 = y.sum := by
    rw [hlen]
    exact (sum_eq_finsetIdx y).symm
  have hC : ∑ i in Finset.range x.length, x.getD i 0 * y.getD i 0 = sumXY x y :=
    (sumXY_eq_finsetIdx x y hlen).symm
  have hD : ∑ i in Finset.range x.length, (x.getD i 0) ^ 2 = sumSq x := by
    have := sum_map_eq_finsetIdx x (fun t => t ^ 2)
    rw [← this]
    rfl
  unfold regDenom at hden
  unfold linear_regression specRegression
  rw [if_neg hden, hA, hB, hC, hD]

/-- C1 witness: a concrete equal-length input with non-zero denominator on
which the theorem applies and both sides evaluate. -/
theorem C1_witness :
    linear_regression [(0 : ℚ), 1] [(3 : ℚ), 5] = .ok (2, 3) := by
  have h := C1_regression_matches_spec_formula [(0 : ℚ), 1] [(3 : ℚ), 5]
    rfl (by norm_num [regDenom, sumSq])
  rw [h]
  norm_num [specRegression, Finset.sum_range_succ, Finset.sum_range_zero]

/-- C2: for equal-length sequences, `pearson_correlation` returns the value
`r = (n*Sxy - Sx*Sy) / sqrt((n*Sxx - Sx^2) * (n*Syy - Sy^2))` (carried in
exact numerator/radicand form) whenever the denominator is non-zero, and
raises the degenerate-input `ValueError` exactly when the denominator — the
square root of the (nonnegative) radicand — is zero. -/
theorem C2_pearson_value_and_guard (x y : List ℚ)
    (hlen : x.length = y.length) :
    0 ≤ pearsonRadicand x y ∧
    (pearsonRadicand x y ≠ 0 →
      pearson_correlation x y = .ok ⟨pearsonNumerator x y, pearsonRadicand x y⟩) ∧
    (pearson_correlation x y = .error corrDenomMsg ↔ pearsonRadicand x y = 0) := by
  have hy : 0 ≤ (x.length : ℚ) * sumSq y - y.sum ^ 2 := by
    have h := sq_sum_le y
    rw [← hlen] at h
    linarith
  have hrad : 0 ≤ pearsonRadicand x y :=
    mul_nonneg (regDenom_nonneg x) hy
  have hnotlt : ¬pearsonRadicand x y < 0 := not_lt.mpr hrad
  refine ⟨hrad, ?_, ?_, ?_⟩
  · intro hne
    unfold pearson_correlation
    rw [if_neg hnotlt, if_neg hne]
  · intro h
    by_contra hne
    unfold pearson_correlation at h
    rw [if_neg hnotlt, if_neg hne] at h
    exact absurd h (by simp)
  · intro h0
    unfold pearson_correlation
    rw [if_neg hnotlt, if_pos h0]

/-- C2 witness: a concrete equal-length input with non-zero denominator. -/
theorem C2_witness :
    pearson_correlation [(0 : ℚ), 1] [(3 : ℚ), 5] = .ok ⟨2, 4⟩ := by
  have h := (C2_pearson_value_and_guard [(0 : ℚ), 1] [(3 : ℚ), 5]
    rfl).2.1 (by norm_num [pearsonRadicand, regDenom, sumSq])
  rw [h]
  norm_num [pearsonNumerator, pearsonRadicand, regDenom, sumSq, sumXY]

/-- In EXACT arithmetic, a constant `c` repeated `n ≥ 2` times gives a
non-zero index denominator, slope `0`, intercept `c`, and a y variance of
exactly zero, so the degenerate guard would fire.  This documents the
intended behavior behind the C5 claim; the program computes in doubles,
whose rounding can make the y factor non-zero (see `C5_float_guard_miss`),
so this lemma is NOT a statement about the program on rounding-affected
constants. -/
theorem constant_input_exact_arithmetic (n : ℕ) (c : ℚ) (hn : 2 ≤ n) :
    linear_regression (indexSeq n) (List.replicate n c) = .ok (0, c) ∧
    pearson_correlation (indexSeq n) (List.replicate n c) =
      .error corrDenomMsg := by
  have hden := regDenom_indexSeq_pos n hn
  have hlen := length_indexSeq n
  have hnQ : (0 : ℚ) < (n : ℚ) := by
    have : (2 : ℚ) ≤ (n : ℚ) := by exact_mod_cast hn
    linarith
  have hxy := sumXY_replicate (indexSeq n) c
  rw [hlen] at hxy
  have hys := sum_replicate_rat n c
  have hne0 : ((indexSeq n).length : ℚ) * sumSq (indexSeq n) -
      (indexSeq n).sum ^ 2 ≠ 0 := by
    unfold regDenom at hden
    exact ne_of_gt hden
  have hnum : ((indexSeq n).length : ℚ) *
      sumXY (indexSeq n) (List.replicate n c) -
      (indexSeq n).sum * (List.replicate n c).sum = 0 := by
    rw [hlen, hxy, hys]
    ring
  constructor
  · unfold linear_regression
    rw [if_neg hne0]
    simp only [hlen, hys, hxy]
    have h0 : (↑n * (c * (indexSeq n).sum) - (indexSeq n).sum * (↑n * c)) = 0 := by
      ring
    rw [h0, zero_div, zero_mul, sub_zero, mul_div_cancel_left₀ c (ne_of_gt hnQ)]
  · have hfact : ((indexSeq n).length : ℚ) * sumSq (List.replicate n c) -
        (List.replicate n c).sum ^ 2 = 0 := by
      rw [hlen, sumSq_replicate, hys]
      ring
    have hrad0 : pearsonRadicand (indexSeq n) (List.replicate n c) = 0 := by
      unfold pearsonRadicand
      rw [hfact, mul_zero]
    unfold pearson_correlation
    rw [hrad0]
    norm_num

/-- C5: the program MISSES the degenerate input for rounding-affected
constants, so the claim (correlation must fail with the degenerate-input
error for every constant input) is the intended behavior and the code is the
slip.  Concretely: parsing rounds the literal 0.3 to
`c = 5404319552844595 / 2 ^ 54`, and for the file lines 0.3, 0.3, 0.3 the
double-precision radicand of the correlation guard evaluates to
`6 / 2 ^ 52`, which is not zero — so `math.sqrt` returns a positive double
(about 3.65e-8), the guard `denominator == 0` is not taken, and the program
prints a correlation of 0.0 and exits 0 instead of raising, contrary to the
claim, to the spec testable property, and to the docstring of
`pearson_correlation` (which says it raises for constant y). -/
theorem C5_float_guard_miss :
    roundDouble (3 / 10) = 5404319552844595 / 2 ^ 54 ∧
    floatRadicandOfThree ((5404319552844595 : ℚ) / 2 ^ 54) = 6 / 2 ^ 52 ∧
    (6 / 2 ^ 52 : ℚ) ≠ 0 := by
  have h03 : roundDouble (3 / 10) = 5404319552844595 / 2 ^ 54 :=
    roundDouble_eval _ _ (-2) (by norm_num) (by norm_num) (by norm_num)
      (by norm_num [roundHalfEven])
  have hc2 : flMul ((5404319552844595 : ℚ) / 2 ^ 54)
      ((5404319552844595 : ℚ) / 2 ^ 54) = 3242591731706757 / 2 ^ 55 := by
    unfold flMul
    exact roundDouble_eval _ _ (-4) (by norm_num) (by norm_num) (by norm_num)
      (by norm_num [roundHalfEven])
  have ha1 : flAdd 0 ((3242591731706757 : ℚ) / 2 ^ 55) =
      3242591731706757 / 2 ^ 55 := by
    unfold flAdd
    exact roundDouble_eval _ _ (-4) (by norm_num) (by norm_num) (by norm_num)
      (by norm_num [roundHalfEven])
  have ha2 : flAdd ((3242591731706757 : ℚ) / 2 ^ 55)
      ((3242591731706757 : ℚ) / 2 ^ 55) = 3242591731706757 / 2 ^ 54 := by
    unfold flAdd
    exact roundDouble_eval _ _ (-3) (by norm_num) (by norm_num) (by norm_num)
      (by norm_num [roundHalfEven])
  have ha3 : flAdd ((3242591731706757 : ℚ) / 2 ^ 54)
      ((3242591731706757 : ℚ) / 2 ^ 55) = 607985949695017 / 2 ^ 51 := by
    unfold flAdd
    exact roundDouble_eval _ _ (-2) (by norm_num) (by norm_num) (by norm_num)
      (by norm_num [roundHalfEven])
  have hs1 : flAdd 0 ((5404319552844595 : ℚ) / 2 ^ 54) =
      5404319552844595 / 2 ^ 54 := by
    unfold flAdd
    exact roundDouble_eval _ _ (-2) (by norm_num) (by norm_num) (by norm_num)
      (by norm_num [roundHalfEven])
  have hs2 : flAdd ((5404319552844595 : ℚ) / 2 ^ 54)
      ((5404319552844595 : ℚ) / 2 ^ 54) = 5404319552844595 / 2 ^ 53 := by
    unfold flAdd
    exact roundDouble_eval _ _ (-1) (by norm_num) (by norm_num) (by norm_num)
      (by norm_num [roundHalfEven])
  have hs3 : flAdd ((5404319552844595 : ℚ) / 2 ^ 53)
      ((5404319552844595 : ℚ) / 2 ^ 54) = 2026619832316723 / 2 ^ 51 := by
    unfold flAdd
    exact roundDouble_eval _ _ (-1) (by norm_num) (by norm_num) (by norm_num)
      (by norm_num [roundHalfEven])
  have hm1 : flMul 3 ((607985949695017 : ℚ) / 2 ^ 51) =
      1823957849085051 / 2 ^ 51 := by
    unfold flMul
    exact roundDouble_eval _ _ (-1) (by norm_num) (by norm_num) (by norm_num)
      (by norm_num [roundHalfEven])
  have hm2 : flMul ((2026619832316723 : ℚ) / 2 ^ 51)
      ((2026619832316723 : ℚ) / 2 ^ 51) = 3647915698170101 / 2 ^ 52 := by
    unfold flMul
    exact roundDouble_eval _ _ (-1) (by norm_num) (by norm_num) (by norm_num)
      (by norm_num [roundHalfEven])
  have hsub : flSub ((1823957849085051 : ℚ) / 2 ^ 51)
      ((3647915698170101 : ℚ) / 2 ^ 52) = 1 / 2 ^ 52 := by
    unfold flSub
    exact roundDouble_eval _ _ (-52) (by norm_num) (by norm_num) (by norm_num)
      (by norm_num [roundHalfEven])
  have hrad : flMul 6 ((1 : ℚ) / 2 ^ 52) = 6 / 2 ^ 52 := by
    unfold flMul
    exact roundDouble_eval _ _ (-50) (by norm_num) (by norm_num) (by norm_num)
      (by norm_num [roundHalfEven])
  have hY : floatYFactorOfThree ((5404319552844595 : ℚ) / 2 ^ 54) =
      1 / 2 ^ 52 := by
    show flSub
        (flMul 3 (flAdd (flAdd
          (flAdd 0 (flMul ((5404319552844595 : ℚ) / 2 ^ 54)
            ((5404319552844595 : ℚ) / 2 ^ 54)))
          (flMul ((5404319552844595 : ℚ) / 2 ^ 54)
            ((5404319552844595 : ℚ) / 2 ^ 54)))
          (flMul ((5404319552844595 : ℚ) / 2 ^ 54)
            ((5404319552844595 : ℚ) / 2 ^ 54))))
        (flMul
          (flAdd (flAdd (flAdd 0 ((5404319552844595 : ℚ) / 2 ^ 54))
            ((5404319552844595 : ℚ) / 2 ^ 54))
            ((5404319552844595 : ℚ) / 2 ^ 54))
          (flAdd (flAdd (flAdd 0 ((5404319552844595 : ℚ) / 2 ^ 54))
            ((5404319552844595 : ℚ) / 2 ^ 54))
            ((5404319552844595 : ℚ) / 2 ^ 54))) = 1 / 2 ^ 52
    rw [hc2, ha1, ha2, ha3, hs1, hs2, hs3, hm1, hm2, hsub]
  refine ⟨h03, ?_, by norm_num⟩
  unfold floatRadicandOfThree
  rw [hY, hrad]

/-- C3 counterexample: the claim says the error carries the RAW text of the
offending line, but on the single line `" abc "` (line 1) the error carries
the stripped text `"abc"`, which differs from the raw line. -/
theorem C3_counterexample :
    parse_file [" abc "] = .error ⟨1, "abc"⟩ ∧ "abc" ≠ " abc " := by
  have hs : pyStrip " abc " = "abc" := by decide
  have he : ("abc").isEmpty = false := by decide
  have hf : pyFloat "abc" = none := by
    have h0 : pyFloatScan "abc".toList = none := by decide
    unfold pyFloat
    rw [h0]
    rfl
  constructor
  · show parseLines 1 [" abc "] = .error ⟨1, "abc"⟩
    simp only [parseLines, hs, he, Bool.false_eq_true, ite_false, hf]
  · decide

/-- C3 (amended): when line `i+1` (1-based) is the first non-blank line whose
content does not parse as a float, `parse_file` fails with a `ParseError`
carrying that 1-based line number and the whitespace-STRIPPED text of the
line (the source interpolates `stripped`, not the raw line), and no partial
results are returned. -/
theorem C3_parse_error_first_stripped (lines : List String) (i : ℕ)
    (hi : i < lines.length)
    (hprev : ∀ j, j < i → ((pyStrip (lines.getD j "")).isEmpty = true ∨
        (pyFloat (pyStrip (lines.getD j ""))).isSome = true))
    (hnb : (pyStrip (lines.getD i "")).isEmpty = false)
    (hnone : pyFloat (pyStrip (lines.getD i "")) = none) :
    parse_file lines = .error ⟨i + 1, pyStrip (lines.getD i "")⟩ := by
  have h := parseLines_firstError lines 1 i hi hprev hnb hnone
  rw [parse_file, h]
  rw [Nat.add_comm 1 i]

/-- C3 witness: line 3 (`"abc"`) is the first bad line after a blank line
and a parseable line. -/
theorem C3_witness :
    parse_file ["", " 1 ", "abc", "2"] = .error ⟨3, "abc"⟩ := by
  have h := C3_parse_error_first_stripped ["", " 1 ", "abc", "2"] 2
    (by decide)
    (by decide)
    (by decide)
    (by decide)
  simpa using h

/-- C4: blank (whitespace-only) lines are skipped without error and without
contributing a value: whenever parsing succeeds, the file with its blank
lines removed parses to the same observation sequence, and `main` (hence the
regression and correlation results) is unchanged. -/
theorem C4_blank_lines_skipped (lines : List String) (vs : List ℚ)
    (h : parse_file lines = .ok vs) :
    parse_file (lines.filter (fun l => !(pyStrip l).isEmpty)) = .ok vs ∧
    ∀ a₀ a₁ : String,
      main [a₀, a₁] (.lines (lines.filter (fun l => !(pyStrip l).isEmpty))) =
        main [a₀, a₁] (.lines lines) := by
  have hf : parse_file (lines.filter (fun l => !(pyStrip l).isEmpty)) = .ok vs :=
    parseLines_filter lines 1 1 vs h
  refine ⟨hf, ?_⟩
  intro a₀ a₁
  simp only [main, hf, h]

/-- C4 witness: a blank line between `1` and `2` changes nothing. -/
theorem C4_witness :
    parse_file (["1", "", "2"].filter (fun l => !(pyStrip l).isEmpty)) =
      .ok [(1 : ℚ), 2] := by
  have h1 : pyFloat (pyStrip "1") = some 1 := by
    rw [(by decide : pyStrip "1" = "1")]
    exact pyFloat_eq_of_scan "1" ⟨false, 1, 0, 0, false, 0⟩ 1 (by decide)
      (by rw [floatLitVal_int 1]; norm_num)
  have h2 : pyFloat (pyStrip "2") = some 2 := by
    rw [(by decide : pyStrip "2" = "2")]
    exact pyFloat_eq_of_scan "2" ⟨false, 2, 0, 0, false, 0⟩ 2 (by decide)
      (by rw [floatLitVal_int 2]; norm_num)
  have hp : parse_file ["1", "", "2"] = .ok [(1 : ℚ), 2] := by
    rw [parse_file]
    rw [parseLines_cons_value 1 "1" ["", "2"] 1 [2] (by decide) h1 ?h]
    case h =>
      rw [parseLines_cons_blank 2 "" ["2"] (by decide)]
      rw [parseLines_cons_value 3 "2" [] 2 [] (by decide) h2 (parseLines_nil 4)]
  exact (C4_blank_lines_skipped ["1", "", "2"] [1, 2] hp).1

/-- C6: a file with exactly one observation makes `linear_regression` raise
the degenerate-input `ValueError` (n = 1 gives a zero denominator), and
`main` surfaces this as exit code 1 with an error line and no output. -/
theorem C6_single_line_degenerate (a₀ a₁ : String) (ls : List String) (v : ℚ)
    (h : parse_file ls = .ok [v]) :
    main [a₀, a₁] (.lines ls) =
      ⟨1, [], ["Error computing statistics: " ++ regDenomMsg]⟩ := by
  have h1 : indexSeq 1 = [(0 : ℚ)] := by
    rw [indexSeq_succ 0]
    simp [indexSeq]
  have hlr : linear_regression (indexSeq 1) [v] = .error regDenomMsg := by
    rw [h1]
    unfold linear_regression
    rw [if_pos (by norm_num [sumSq])]
  simp only [main, h, hlr, List.length_cons, List.length_nil, List.isEmpty_cons,
    ne_eq, OfNat.ofNat_ne_zero, not_false_eq_true, ite_false, Bool.false_eq_true]
  norm_num

/-- C6 witness: the single line `5`. -/
theorem C6_witness :
    main ["prog", "data"] (.lines ["5"]) =
      ⟨1, [], ["Error computing statistics: " ++ regDenomMsg]⟩ := by
  have h5 : pyFloat (pyStrip "5") = some 5 := by
    rw [(by decide : pyStrip "5" = "5")]
    exact pyFloat_eq_of_scan "5" ⟨false, 5, 0, 0, false, 0⟩ 5 (by decide)
      (by rw [floatLitVal_int 5]; norm_num)
  exact C6_single_line_degenerate "prog" "data" ["5"] 5
    (by rw [parse_file,
      parseLines_cons_value 1 "5" [] 5 [] (by decide) h5 (parseLines_nil 2)])

/-- C7: every run either fails — exit code 1, an error line on the error
stream, and NOTHING on standard output — or succeeds — exit code 0, nothing
on the error stream, and exactly the two result lines (regression then
correlation); partial output is impossible. -/
theorem C7_failure_atomicity (argv : List String) (r : ReadResult) :
    ((main argv r).exit = 1 ∧ (main argv r).stdout = [] ∧
      (main argv r).stderr ≠ []) ∨
    ((main argv r).exit = 0 ∧ (main argv r).stderr = [] ∧
      ∃ m b p, (main argv r).stdout = [.regression m b, .pearson p]) := by
  unfold main
  split
  · left
    exact ⟨rfl, rfl, by simp⟩
  · split
    · left
      exact ⟨rfl, rfl, by simp⟩
    · split
      · left
        exact ⟨rfl, rfl, by simp⟩
      · split
        · left
          exact ⟨rfl, rfl, by simp⟩
        · split
          · left
            exact ⟨rfl, rfl, by simp⟩
          · split
            · left
              exact ⟨rfl, rfl, by simp⟩
            · right
              exact ⟨rfl, rfl, _, _, _, rfl⟩

/-- C9: the division by `n` in the intercept cannot divide by zero: with at
most one point the regression denominator is exactly zero, so the guard
raises first; whenever `linear_regression` returns a value, `n ≥ 2`.  In
particular two empty lists give the degenerate-input error. -/
theorem C9_intercept_division_safe (x y : List ℚ) :
    (x.length ≤ 1 → linear_regression x y = .error regDenomMsg) ∧
    (∀ m b, linear_regression x y = .ok (m, b) → 2 ≤ x.length) := by
  have hzero : x.length ≤ 1 → ((x.length : ℚ) * sumSq x - x.sum ^ 2 = 0) := by
    intro h
    match x with
    | [] => simp [sumSq]
    | [a] =>
      simp [sumSq]
    | a :: b :: t =>
      exfalso
      simp only [List.length_cons] at h
      omega
  constructor
  · intro h
    unfold linear_regression
    rw [if_pos (hzero h)]
  · intro m b hok
    by_contra hlt
    have h1 : x.length ≤ 1 := by omega
    unfold linear_regression at hok
    rw [if_pos (hzero h1)] at hok
    exact absurd hok (by simp)

/-- C9 witness: `linear_regression([], [])` raises the degenerate-input
error, not a division-by-zero error. -/
theorem C9_witness :
    linear_regression ([] : List ℚ) [] = .error regDenomMsg :=
  (C9_intercept_division_safe [] []).1 (by norm_num)

/-- C10: neither function checks that the lengths agree: on unequal-length
inputs whose guard quantity is non-zero (for correlation: whose radicand is
positive, so that `math.sqrt` neither raises nor returns zero), both return
values built from the inconsistent sums — `n`, `Sx`, `Sxx` from `x` alone,
`Sy` (and `Syy`) from `y` alone, `Sxy` over the zipped common prefix. -/
theorem C10_no_length_check (x y : List ℚ) (_hlen : x.length ≠ y.length) :
    (regDenom x ≠ 0 →
      linear_regression x y =
        .ok ((((x.length : ℚ) * sumXY x y - x.sum * y.sum) / regDenom x),
          ((y.sum -
              (((x.length : ℚ) * sumXY x y - x.sum * y.sum) / regDenom x) *
                x.sum) / (x.length : ℚ)))) ∧
    (0 < pearsonRadicand x y →
      pearson_correlation x y = .ok ⟨pearsonNumerator x y, pearsonRadicand x y⟩) := by
  constructor
  · intro hd
    unfold regDenom at hd
    unfold linear_regression
    rw [if_neg hd]
    rfl
  · intro hpos
    unfold pearson_correlation
    rw [if_neg (not_lt.mpr (le_of_lt hpos)), if_neg (ne_of_gt hpos)]

/-- C10 witness: `x` has three elements, `y` two; both functions return
values computed from the inconsistent sums. -/
theorem C10_witness :
    linear_regression [(0 : ℚ), 1, 2] [(1 : ℚ), 2] = .ok (-(1 / 2), 3 / 2) ∧
    pearson_correlation [(0 : ℚ), 1, 2] [(1 : ℚ), 2] = .ok ⟨-3, 36⟩ := by
  have h := C10_no_length_check [(0 : ℚ), 1, 2] [(1 : ℚ), 2] (by norm_num)
  constructor
  · rw [h.1 (by norm_num [regDenom, sumSq])]
    norm_num [sumXY, sumSq, regDenom]
  · rw [h.2 (by norm_num [pearsonRadicand, regDenom, sumSq, sumXY])]
    norm_num [pearsonNumerator, pearsonRadicand, regDenom, sumSq, sumXY]

/-- C8: on the input lines `1`..`5` (y = x+1 over indices 0..4) the program
computes slope exactly `1`, intercept exactly `1` and correlation exactly `1`
(the Pearson value `⟨50, 2500⟩` stands for `50 / sqrt 2500 = 1`), exits 0,
and the rendered output lines show `1.000000`, `1.000000` and
`1.0000000000`. -/
theorem C8_perfect_line_example :
    main ["linear_stats.py", "data.txt"] (.lines ["1", "2", "3", "4", "5"]) =
      ⟨0, [.regression 1 1, .pearson ⟨50, 2500⟩], []⟩ ∧
    PearsonResult.represents ⟨50, 2500⟩ 1 ∧
    renderRegressionLine 1 1 =
      "Linear Regression Line: y = 1.000000x + 1.000000" ∧
    renderPearsonLine 1 =
      "Pearson Correlation Coefficient: 1.0000000000" := by
  have f1 : pyFloat (pyStrip "1") = some 1 := by
    rw [(by decide : pyStrip "1" = "1")]
    exact pyFloat_eq_of_scan "1" ⟨false, 1, 0, 0, false, 0⟩ 1 (by decide)
      (by rw [floatLitVal_int 1]; norm_num)
  have f2 : pyFloat (pyStrip "2") = some 2 := by
    rw [(by decide : pyStrip "2" = "2")]
    exact pyFloat_eq_of_scan "2" ⟨false, 2, 0, 0, false, 0⟩ 2 (by decide)
      (by rw [floatLitVal_int 2]; norm_num)
  have f3 : pyFloat (pyStrip "3") = some 3 := by
    rw [(by decide : pyStrip "3" = "3")]
    exact pyFloat_eq_of_scan "3" ⟨false, 3, 0, 0, false, 0⟩ 3 (by decide)
      (by rw [floatLitVal_int 3]; norm_num)
  have f4 : pyFloat (pyStrip "4") = some 4 := by
    rw [(by decide : pyStrip "4" = "4")]
    exact pyFloat_eq_of_scan "4" ⟨false, 4, 0, 0, false, 0⟩ 4 (by decide)
      (by rw [floatLitVal_int 4]; norm_num)
  have f5 : pyFloat (pyStrip "5") = some 5 := by
    rw [(by decide : pyStrip "5" = "5")]
    exact pyFloat_eq_of_scan "5" ⟨false, 5, 0, 0, false, 0⟩ 5 (by decide)
      (by rw [floatLitVal_int 5]; norm_num)
  have hp : parse_file ["1", "2", "3", "4", "5"] = .ok [(1 : ℚ), 2, 3, 4, 5] := by
    rw [parse_file,
      parseLines_cons_value 1 "1" _ 1 [2, 3, 4, 5] (by decide) f1
        (parseLines_cons_value 2 "2" _ 2 [3, 4, 5] (by decide) f2
          (parseLines_cons_value 3 "3" _ 3 [4, 5] (by decide) f3
            (parseLines_cons_value 4 "4" _ 4 [5] (by decide) f4
              (parseLines_cons_value 5 "5" _ 5 [] (by decide) f5
                (parseLines_nil 6)))))]
  have hidx : indexSeq 5 = [0, 1, 2, 3, 4] := by
    norm_num [indexSeq, List.range_succ]
  have hlr : linear_regression [(0 : ℚ), 1, 2, 3, 4] [(1 : ℚ), 2, 3, 4, 5] =
      .ok (1, 1) := by
    unfold linear_regression
    rw [if_neg (by norm_num [sumSq])]
    norm_num [sumXY, sumSq]
  have hpc : pearson_correlation [(0 : ℚ), 1, 2, 3, 4] [(1 : ℚ), 2, 3, 4, 5] =
      .ok ⟨50, 2500⟩ := by
    unfold pearson_correlation
    rw [if_neg (by norm_num [pearsonRadicand, regDenom, sumSq, sumXY]),
        if_neg (by norm_num [pearsonRadicand, regDenom, sumSq, sumXY])]
    norm_num [pearsonNumerator, pearsonRadicand, regDenom, sumSq, sumXY]
  have fmt6 : formatFixed 1 6 = "1.000000" := by
    norm_num [formatFixed]
    decide
  have fmt10 : formatFixed 1 10 = "1.0000000000" := by
    norm_num [formatFixed]
    decide
  refine ⟨?_, by norm_num [PearsonResult.represents], ?_, ?_⟩
  · simp only [main, hp, List.isEmpty_cons, Bool.false_eq_true, ite_false]
    norm_num [hidx, hlr, hpc]
  · unfold renderRegressionLine
    rw [fmt6]
    decide
  · unfold renderPearsonLine
    rw [fmt10]
    decide

end LinearStats
